import Mathlib

/-!
Verification of the API-key authorization gate of the bundler service
(src/rpc/middleware/apiKeyAuth.ts): a shallow embedding of `validateApiKey`
and `createApiKeyAuthMiddleware`, together with theorems settling the
specification's claims about them.

Modelling conventions:
* A parsed JSON body is a `Json` value; an absent body (`undefined`) is
  `Option.none`.
* JavaScript truthiness of the parsed body and of the provided key is made
  explicit (`jsTruthy`, `strTruthy`): `!body` is true for an absent body and
  for the falsy JSON values `null`, `false`, `0`, `""`; `!providedKey` is
  true for an absent header and for the empty string.
* A `method` property whose value is not a string can never be strictly
  equal (`===`) to an element of `protectedMethods : string[]`, so
  `jsonMethod` maps it to `none`, exactly like an absent property.
* Reading `.method` of a `null` batch entry throws a TypeError in the
  source (line 31), so the gate can fail rather than return.
  `validateApiKeyE` models that error path explicitly with `Except`, and
  `validateApiKeyE_ok` proves that `validateApiKey` agrees with it on
  every body free of null batch entries — the bodies on which the source
  returns at all, which is where the returned-decision claims live.
-/

/-- Parsed JSON values, as Fastify hands them to the middleware. Numbers are
modelled as integers; the only number the gate ever produces is `-32001`. -/
inductive Json where
  | null : Json
  | bool (b : Bool) : Json
  | num (n : Int) : Json
  | str (s : String) : Json
  | arr (elems : List Json) : Json
  | obj (fields : List (String × Json)) : Json

/-- Mirrors `interface ApiKeyAuthConfig` (apiKeyAuth.ts lines 4-7). -/
structure ApiKeyAuthConfig where
  apiKey : String
  protectedMethods : List String
deriving DecidableEq

/-- Mirrors the `error` payload of `AuthValidationResult` (lines 11-14). -/
structure AuthError where
  code : Int
  message : String
deriving DecidableEq

/-- Mirrors `interface AuthValidationResult` (lines 9-15): `error?` is an
optional field. -/
structure AuthValidationResult where
  isValid : Bool
  error : Option AuthError
deriving DecidableEq

/-- JavaScript truthiness of a parsed JSON value: `null`, `false`, `0` and
the empty string are falsy; every array and object is truthy. -/
def jsTruthy : Json → Bool
  | Json.null => false
  | Json.bool b => b
  | Json.num n => !(n == 0)
  | Json.str s => !(s == "")
  | Json.arr _ => true
  | Json.obj _ => true

/-- JavaScript truthiness of the optional provided key (`!providedKey` in
line 44 is true for `undefined` and for the empty string). -/
def strTruthy : Option String → Bool
  | none => false
  | some s => !(s == "")

/-- The JavaScript property access `req.method` on a parsed JSON value,
restricted to the receivers on which the access returns: a missing
property, a non-object non-null receiver (boxing makes the access yield
`undefined`), or a non-string value can never be strictly equal (`===`) to
an element of `config.protectedMethods : string[]`, so all are `none`. A
`null` receiver is mapped to `none` here as well, which is NOT returning
behavior of the source — there the access throws a TypeError; that error
path is modelled by `jsonMethodAccess` and `validateApiKeyE` below, and
`validateApiKeyE_ok` proves this plain model exact on every body without a
null batch entry. -/
def jsonMethod : Json → Option String
  | Json.obj fields =>
    match fields.lookup "method" with
    | some (Json.str s) => some s
    | _ => none
  | _ => none

/-- Mirrors lines 30-32: `Array.isArray(body) ? body.map(req => req.method)
: [body.method]`. -/
def extractMethods : Json → List (Option String)
  | Json.arr reqs => reqs.map jsonMethod
  | b => [jsonMethod b]

/-- One step of line 35-37: does a single extracted entry name a protected
method (`config.protectedMethods.includes(method)`)? An entry with no
method name matches nothing. -/
def methodMatches (protectedMethods : List String) : Option String → Bool
  | some m => protectedMethods.contains m
  | none => false

/-- Mirrors lines 35-37: `methods.some(method =>
config.protectedMethods.includes(method))`. -/
def requiresAuthB (protectedMethods : List String) (methods : List (Option String)) : Bool :=
  methods.any (methodMatches protectedMethods)

/-- Mirrors `validateApiKey` (lines 20-55). The intermediate constants
`methods` and `requiresAuth` of the source are inlined; the `!body` guard is
split into the absent case and the falsy-value case. -/
def validateApiKey (config : ApiKeyAuthConfig) (body : Option Json)
    (providedKey : Option String) : AuthValidationResult :=
  match body with
  | none => { isValid := true, error := none }
  | some b =>
    if jsTruthy b = false then { isValid := true, error := none }
    else if requiresAuthB config.protectedMethods (extractMethods b) = false then
      { isValid := true, error := none }
    else if strTruthy providedKey = false ∨ providedKey ≠ some config.apiKey then
      { isValid := false
        error := some { code := -32001, message := "Unauthorized: Invalid or missing API key" } }
    else { isValid := true, error := none }

/-- The JavaScript property access `req.method` of line 31 with its error
path: reading `.method` of `null` throws a TypeError; every other receiver
yields the property value exactly as `jsonMethod` reads it. -/
def jsonMethodAccess : Json → Except String (Option String)
  | Json.null => Except.error "TypeError: Cannot read properties of null (reading method)"
  | b => Except.ok (jsonMethod b)

/-- Line 31, `body.map(req => req.method)`, with the error path explicit:
the TypeError thrown at the first `null` batch entry propagates out of the
map. -/
def mapMethodAccess : List Json → Except String (List (Option String))
  | [] => Except.ok []
  | req :: reqs =>
    match jsonMethodAccess req with
    | Except.error e => Except.error e
    | Except.ok m => (mapMethodAccess reqs).map (fun ms => m :: ms)

/-- Lines 30-32 with the error path explicit: a batch is mapped through the
throwing access; a lone call value is read directly. -/
def extractMethodsE : Json → Except String (List (Option String))
  | Json.arr reqs => mapMethodAccess reqs
  | b => (jsonMethodAccess b).map (fun m => [m])

/-- Mirrors `validateApiKey` (lines 20-55) with the exception of line 31
made explicit: a thrown TypeError escapes the function — and the async
middleware hook, failing the request with a server error — instead of
producing an `AuthValidationResult`. Off the error path it returns exactly
the `validateApiKey` result (`validateApiKeyE_ok`). -/
def validateApiKeyE (config : ApiKeyAuthConfig) (body : Option Json)
    (providedKey : Option String) : Except String AuthValidationResult :=
  match body with
  | none => Except.ok { isValid := true, error := none }
  | some b =>
    if jsTruthy b = false then Except.ok { isValid := true, error := none }
    else
      (extractMethodsE b).map (fun methods =>
        if requiresAuthB config.protectedMethods methods = false then
          { isValid := true, error := none }
        else if strTruthy providedKey = false ∨ providedKey ≠ some config.apiKey then
          { isValid := false
            error := some { code := -32001, message := "Unauthorized: Invalid or missing API key" } }
        else { isValid := true, error := none })

/-- Characters that end the pathname of a URL: a question mark starts the
query, a hash starts the fragment. -/
def notQueryHash (c : Char) : Bool :=
  !(c == '?') && !(c == '#')

/-- Models line 63-64, `new URL(request.url, base).pathname`, for the
origin-relative request targets Fastify passes (a plain path, optionally
followed by a query string or fragment, without percent-escapes or dot
segments, which is all the claims concern): the pathname is the prefix of
the raw URL before the first question mark or hash. -/
def stripQuery (raw : String) : String :=
  String.mk (raw.data.takeWhile notQueryHash)

/-- Mirrors the regular expression `/^\/v\d+\/rpc$/` of line 67: a slash, a
`v`, at least one decimal digit, then exactly `/rpc`. Since `/` is not a
digit, taking the maximal digit run is equivalent to the regex semantics. -/
def matchVersionedRpc (p : String) : Bool :=
  match p.data with
  | '/' :: 'v' :: rest =>
    !(rest.takeWhile Char.isDigit).isEmpty &&
      decide (rest.dropWhile Char.isDigit = "/rpc".data)
  | _ => false

/-- Mirrors line 67: the pathname is gated when it is in the literal list
`["/rpc", "/", "/v1/rpc", "/v2/rpc"]` or matches `/^\/v\d+\/rpc$/`. -/
def isGatedPath (p : String) : Bool :=
  ["/rpc", "/", "/v1/rpc", "/v2/rpc"].contains p || matchVersionedRpc p

/-- Mirrors lines 77-84: when the validation failed and carries an error,
reply with HTTP status 401 and the single JSON-RPC error envelope
`jsonrpc "2.0", id null, error <error>`; otherwise do nothing. `none` means
the middleware falls through and the dispatcher handles the request. -/
def renderAuth (validation : AuthValidationResult) : Option (Nat × Json) :=
  if validation.isValid = false then
    match validation.error with
    | some e =>
      some (401, Json.obj
        [("jsonrpc", Json.str "2.0"),
         ("id", Json.null),
         ("error", Json.obj [("code", Json.num e.code), ("message", Json.str e.message)])])
    | none => none
  else none

/-- Mirrors the handler returned by `createApiKeyAuthMiddleware`
(lines 57-86): strip the query from the raw URL, return immediately on a
non-gated pathname, otherwise validate and render. A `some (status, body)`
result is the short-circuit 401 reply sent without invoking the dispatcher;
`none` lets normal handling proceed. -/
def apiKeyAuthMiddleware (config : ApiKeyAuthConfig) (rawUrl : String)
    (body : Option Json) (providedKey : Option String) : Option (Nat × Json) :=
  if isGatedPath (stripQuery rawUrl) = false then none
  else renderAuth (validateApiKey config body providedKey)

/-- The fixed 401 response body of lines 78-83 for the gate's only error. -/
def unauthorizedEnvelope : Json :=
  Json.obj
    [("jsonrpc", Json.str "2.0"),
     ("id", Json.null),
     ("error", Json.obj
       [("code", Json.num (-32001)),
        ("message", Json.str "Unauthorized: Invalid or missing API key")])]

/-- Modelled from the spec: the startup code that conditionally installs the
API-key middleware (the configuration loader and server wiring are not under
src/, only the middleware module is). Per the spec, "An absent/empty
`apiKey` disables the gate entirely regardless of `protectedMethods`", so
the overall gate decision is allowed whenever the configured key is absent
or empty, and otherwise is the `validateApiKey` decision. -/
def gateDecision (apiKey : Option String) (protectedMethods : List String)
    (body : Option Json) (providedKey : Option String) : AuthValidationResult :=
  match apiKey with
  | none => { isValid := true, error := none }
  | some k =>
    if k = "" then { isValid := true, error := none }
    else validateApiKey { apiKey := k, protectedMethods := protectedMethods } body providedKey

/-- The `requiresAuth` value the source computes for a given body: false for
an absent or falsy body (which short-circuits before extraction), otherwise
whether some extracted method is protected. -/
def requiresAuthOf (config : ApiKeyAuthConfig) (body : Option Json) : Bool :=
  match body with
  | none => false
  | some b =>
    if jsTruthy b = false then false
    else requiresAuthB config.protectedMethods (extractMethods b)

/-- The spec's Validator formula, written from the spec's words for claim
C1: `allowed = !requiresAuth || (providedKey is defined AND providedKey ==
configuredKey)`, with "defined" read as the key being present. -/
def specAllowed (config : ApiKeyAuthConfig) (body : Option Json)
    (providedKey : Option String) : Bool :=
  !(requiresAuthOf config body) || (providedKey.isSome && providedKey == some config.apiKey)

/-- The amended Validator formula: the provided key must be present,
non-empty and equal to the configured key (JavaScript truthiness makes an
empty provided key indistinguishable from an absent one). -/
def specAllowedAmended (config : ApiKeyAuthConfig) (body : Option Json)
    (providedKey : Option String) : Bool :=
  !(requiresAuthOf config body) ||
    (match providedKey with
     | some k => !(k == "") && k == config.apiKey
     | none => false)

/-! ## Helper lemmas about the validator -/

/-- Every result of `validateApiKey` is either the plain success value or
the fixed denial value. -/
theorem validateApiKey_shape (config : ApiKeyAuthConfig) (body : Option Json)
    (key : Option String) :
    validateApiKey config body key = { isValid := true, error := none } ∨
    validateApiKey config body key =
      { isValid := false
        error := some { code := -32001, message := "Unauthorized: Invalid or missing API key" } } := by
  unfold validateApiKey
  cases body with
  | none => exact Or.inl rfl
  | some b =>
    by_cases h1 : jsTruthy b = false
    · exact Or.inl (by simp [h1])
    · by_cases h2 : requiresAuthB config.protectedMethods (extractMethods b) = false
      · exact Or.inl (by simp [h1, h2])
      · by_cases h3 : strTruthy key = false ∨ key ≠ some config.apiKey
        · exact Or.inr (by simp [h1, h2, h3])
        · exact Or.inl (by simp [h1, h2, h3])

/-- A falsy body extracts at most a method-less entry, so it never requires
authentication. -/
theorem requiresAuth_false_of_falsy (pm : List String) (b : Json)
    (h : jsTruthy b = false) :
    requiresAuthB pm (extractMethods b) = false := by
  cases b <;> simp_all [jsTruthy, extractMethods, jsonMethod, requiresAuthB, methodMatches]

/-- `requiresAuth` is true exactly when some extracted method name is in the
protected list. -/
theorem requiresAuthB_iff (pm : List String) (ms : List (Option String)) :
    requiresAuthB pm ms = true ↔ ∃ s : String, some s ∈ ms ∧ s ∈ pm := by
  simp only [requiresAuthB, List.any_eq_true]
  constructor
  · rintro ⟨m, hm, hmatch⟩
    cases m with
    | none => simp [methodMatches] at hmatch
    | some s =>
      refine ⟨s, hm, ?_⟩
      simpa [methodMatches] using hmatch
  · rintro ⟨s, hs, hin⟩
    exact ⟨some s, hs, by simp [methodMatches, hin]⟩

/-- When authentication is required the body was truthy (falsy bodies never
extract a protected method). -/
theorem jsTruthy_of_requiresAuth {pm : List String} {b : Json}
    (h : requiresAuthB pm (extractMethods b) = true) : jsTruthy b = true := by
  cases hjs : jsTruthy b with
  | true => rfl
  | false =>
    rw [requiresAuth_false_of_falsy pm b hjs] at h
    exact absurd h (by simp)

/-- `requiresAuth` depends only on which method names occur, not on their
order or multiplicity. -/
theorem requiresAuthB_eq_of_same_names {pm : List String}
    {ms₁ ms₂ : List (Option String)}
    (h : ∀ s : String, some s ∈ ms₁ ↔ some s ∈ ms₂) :
    requiresAuthB pm ms₁ = requiresAuthB pm ms₂ := by
  rw [Bool.eq_iff_iff, requiresAuthB_iff, requiresAuthB_iff]
  constructor
  · rintro ⟨s, hs, hin⟩
    exact ⟨s, (h s).mp hs, hin⟩
  · rintro ⟨s, hs, hin⟩
    exact ⟨s, (h s).mpr hs, hin⟩

/-! ## Claims about the validator -/

/-- Claim C1, counterexample: the claim's formula
`allowed = !requiresAuth || (providedKey is defined AND providedKey ==
configuredKey)` fails when the configured key is the empty string and the
provided key is the (defined, equal) empty string: the formula says allowed
but `validateApiKey` denies, because the JavaScript truthiness test
`!providedKey` treats the empty provided key as missing. -/
theorem C1_counterexample :
    specAllowed ⟨"", ["eth_sendUserOperation"]⟩
        (some (Json.obj [("method", Json.str "eth_sendUserOperation")])) (some "") = true ∧
    (validateApiKey ⟨"", ["eth_sendUserOperation"]⟩
        (some (Json.obj [("method", Json.str "eth_sendUserOperation")])) (some "")).isValid
      = false := by
  constructor
  · decide
  · decide

/-- Claim C1 (amended): for every configuration, body and provided key,
`validateApiKey` allows the request if and only if no extracted method is
protected, or the provided key is defined, non-empty and equal to the
configured key; so for a protected method the exact configured key is
allowed when it is non-empty, and any other provided string (empty,
case-altered, near-miss) is denied. -/
theorem C1_claim (config : ApiKeyAuthConfig) (body : Option Json) (key : Option String) :
    (validateApiKey config body key).isValid = specAllowedAmended config body key := by
  unfold validateApiKey specAllowedAmended requiresAuthOf
  cases body with
  | none => rfl
  | some b =>
    by_cases h1 : jsTruthy b = false
    · simp [h1]
    · by_cases h2 : requiresAuthB config.protectedMethods (extractMethods b) = false
      · simp [h1, h2]
      · have h2' : requiresAuthB config.protectedMethods (extractMethods b) = true := by
          revert h2
          cases requiresAuthB config.protectedMethods (extractMethods b) <;> simp
        cases key with
        | none => simp [h1, h2', strTruthy]
        | some k =>
          by_cases hk0 : k = ""
          · subst hk0
            simp [h1, h2', strTruthy]
          · by_cases hk : k = config.apiKey
            · subst hk
              simp [h1, h2', strTruthy, hk0]
            · simp [h1, h2', strTruthy, hk0, hk]

/-- Claim C2: for every non-null body, authentication is required exactly
when some extracted method name is in the protected set; when it is and no
valid key accompanies the request the whole body (batch included) is
denied; and when no extracted method is protected the body is allowed even
with `apiKey` set and `protectedMethods` non-empty. -/
theorem C2_claim (config : ApiKeyAuthConfig) (b : Json) (key : Option String) :
    (requiresAuthB config.protectedMethods (extractMethods b) = true ↔
      ∃ m : String, some m ∈ extractMethods b ∧ m ∈ config.protectedMethods)
    ∧ (requiresAuthB config.protectedMethods (extractMethods b) = true →
        strTruthy key = false ∨ key ≠ some config.apiKey →
        validateApiKey config (some b) key =
          { isValid := false
            error := some { code := -32001, message := "Unauthorized: Invalid or missing API key" } })
    ∧ (requiresAuthB config.protectedMethods (extractMethods b) = false →
        validateApiKey config (some b) key = { isValid := true, error := none }) := by
  refine ⟨requiresAuthB_iff _ _, fun hreq hkey => ?_, fun hreq => ?_⟩
  · have hb := jsTruthy_of_requiresAuth hreq
    unfold validateApiKey
    simp [hb, hreq, hkey]
  · unfold validateApiKey
    by_cases hb : jsTruthy b = false
    · simp [hb]
    · simp [hb, hreq]

/-- Claim C2, witness: with `protectedMethods = ["eth_sendUserOperation"]`,
the mixed batch `eth_chainId, eth_sendUserOperation` without a key is denied
as a whole, and the purely unprotected batch `eth_chainId` is allowed. -/
theorem C2_witness :
    validateApiKey ⟨"secret", ["eth_sendUserOperation"]⟩
        (some (Json.arr [Json.obj [("method", Json.str "eth_chainId")],
          Json.obj [("method", Json.str "eth_sendUserOperation")]])) none =
      { isValid := false
        error := some { code := -32001, message := "Unauthorized: Invalid or missing API key" } } ∧
    validateApiKey ⟨"secret", ["eth_sendUserOperation"]⟩
        (some (Json.arr [Json.obj [("method", Json.str "eth_chainId")]])) none =
      { isValid := true, error := none } := by
  constructor
  · exact (C2_claim ⟨"secret", ["eth_sendUserOperation"]⟩
      (Json.arr [Json.obj [("method", Json.str "eth_chainId")],
        Json.obj [("method", Json.str "eth_sendUserOperation")]]) none).2.1
      (by decide) (by decide)
  · exact (C2_claim ⟨"secret", ["eth_sendUserOperation"]⟩
      (Json.arr [Json.obj [("method", Json.str "eth_chainId")]]) none).2.2 (by decide)

/-- Claim C3: when the configured key is absent or empty the gate is never
installed, so the decision is allowed for every body (single, batch,
protected or not) and every provided key, regardless of
`protectedMethods`. -/
theorem C3_claim (protectedMethods : List String) (body : Option Json) (key : Option String) :
    gateDecision none protectedMethods body key = { isValid := true, error := none } ∧
    gateDecision (some "") protectedMethods body key = { isValid := true, error := none } := by
  constructor
  · rfl
  · simp [gateDecision]

/-- A non-null receiver never throws: the access returns what `jsonMethod`
reads. -/
theorem jsonMethodAccess_ok {b : Json} (h : b ≠ Json.null) :
    jsonMethodAccess b = Except.ok (jsonMethod b) := by
  cases b with
  | null => exact absurd rfl h
  | bool x => rfl
  | num x => rfl
  | str x => rfl
  | arr x => rfl
  | obj x => rfl

/-- Mapping the throwing access over a batch free of null entries returns
the plain extraction. -/
theorem mapMethodAccess_ok {reqs : List Json} (h : Json.null ∉ reqs) :
    mapMethodAccess reqs = Except.ok (reqs.map jsonMethod) := by
  induction reqs with
  | nil => rfl
  | cons r rs ih =>
    have hr : r ≠ Json.null := by
      intro he
      subst he
      exact h (List.mem_cons_self _ _)
    simp only [mapMethodAccess, jsonMethodAccess_ok hr]
    rw [ih (fun hm => h (List.mem_cons_of_mem r hm))]
    rfl

/-- A truthy body with no null batch entry extracts without throwing, and
the throwing extractor returns the plain extraction there. -/
theorem extractMethodsE_ok {b : Json} (h : ∀ reqs, b = Json.arr reqs → Json.null ∉ reqs)
    (hb : b ≠ Json.null) :
    extractMethodsE b = Except.ok (extractMethods b) := by
  cases b with
  | arr reqs => simpa [extractMethodsE, extractMethods] using mapMethodAccess_ok (h reqs rfl)
  | null => exact absurd rfl hb
  | bool x => rfl
  | num x => rfl
  | str x => rfl
  | obj x => rfl

/-- Off the error path — no null batch entry — the exception-aware validator
returns exactly the `validateApiKey` result: the plain embedding is exact on
every body for which the source returns at all. -/
theorem validateApiKeyE_ok (config : ApiKeyAuthConfig) (body : Option Json)
    (providedKey : Option String)
    (h : ∀ reqs, body = some (Json.arr reqs) → Json.null ∉ reqs) :
    validateApiKeyE config body providedKey =
      Except.ok (validateApiKey config body providedKey) := by
  unfold validateApiKeyE validateApiKey
  cases body with
  | none => rfl
  | some b =>
    by_cases hb : jsTruthy b = false
    · simp [hb]
    · have hnull : b ≠ Json.null := by
        intro he
        subst he
        exact hb rfl
      have he : extractMethodsE b = Except.ok (extractMethods b) :=
        extractMethodsE_ok (fun reqs hr => h reqs (by rw [hr])) hnull
      simp [hb, he, Except.map]

/-- Claim C6, code-bug evaluation at the failing input: on the malformed
batch `[null]` the gate does not produce an allowed decision from an empty
method sequence — line 31 throws a TypeError reading `.method` of the null
entry, so the gate fails (the async hook rejects and the request ends in a
server error), contrary to the claim and to the lenient-extractor design
the spec states. -/
theorem C6_code_bug :
    validateApiKeyE ⟨"k", ["m"]⟩ (some (Json.arr [Json.null])) none =
      Except.error "TypeError: Cannot read properties of null (reading method)" := rfl

/-- Claim C8: when authentication is required, a defined-but-wrong provided
key and a missing provided key produce identical results — the same
`isValid = false` and the same fixed error object — so the response does not
distinguish the two cases. -/
theorem C8_claim (config : ApiKeyAuthConfig) (b : Json) (wrong : String)
    (hreq : requiresAuthB config.protectedMethods (extractMethods b) = true)
    (hw : wrong ≠ config.apiKey) :
    validateApiKey config (some b) (some wrong) = validateApiKey config (some b) none ∧
    validateApiKey config (some b) none =
      { isValid := false
        error := some { code := -32001, message := "Unauthorized: Invalid or missing API key" } } := by
  have hb := jsTruthy_of_requiresAuth hreq
  have hnone : validateApiKey config (some b) none =
      { isValid := false
        error := some { code := -32001, message := "Unauthorized: Invalid or missing API key" } } := by
    unfold validateApiKey
    simp [hb, hreq, strTruthy]
  have hwrong : validateApiKey config (some b) (some wrong) =
      { isValid := false
        error := some { code := -32001, message := "Unauthorized: Invalid or missing API key" } } := by
    unfold validateApiKey
    simp [hb, hreq, hw]
  exact ⟨hwrong.trans hnone.symm, hnone⟩

/-- Claim C8, witness: with configured key `secret`, the wrong key `wrong`
and a missing key yield the same denial for a protected call. -/
theorem C8_witness :
    validateApiKey ⟨"secret", ["m"]⟩ (some (Json.obj [("method", Json.str "m")])) (some "wrong") =
      validateApiKey ⟨"secret", ["m"]⟩ (some (Json.obj [("method", Json.str "m")])) none ∧
    validateApiKey ⟨"secret", ["m"]⟩ (some (Json.obj [("method", Json.str "m")])) none =
      { isValid := false
        error := some { code := -32001, message := "Unauthorized: Invalid or missing API key" } } :=
  C8_claim ⟨"secret", ["m"]⟩ (Json.obj [("method", Json.str "m")]) "wrong"
    (by decide) (by decide)

/-- Claim C9: on batch bodies the validator's result depends only on the set
of method names occurring in the batch, so permuting or duplicating calls
leaves the returned `AuthValidationResult` unchanged. -/
theorem C9_claim (config : ApiKeyAuthConfig) (key : Option String) (xs ys : List Json)
    (h : ∀ s : String,
      some s ∈ extractMethods (Json.arr xs) ↔ some s ∈ extractMethods (Json.arr ys)) :
    validateApiKey config (some (Json.arr xs)) key =
      validateApiKey config (some (Json.arr ys)) key := by
  unfold validateApiKey
  simp only [jsTruthy]
  rw [requiresAuthB_eq_of_same_names h]

/-- Claim C9, witness: the batch `a, m` and its permuted, duplicated variant
`m, a, a` get the same result. -/
theorem C9_witness :
    validateApiKey ⟨"secret", ["m"]⟩
        (some (Json.arr [Json.obj [("method", Json.str "a")],
          Json.obj [("method", Json.str "m")]])) none =
      validateApiKey ⟨"secret", ["m"]⟩
        (some (Json.arr [Json.obj [("method", Json.str "m")],
          Json.obj [("method", Json.str "a")],
          Json.obj [("method", Json.str "a")]])) none := by
  refine C9_claim ⟨"secret", ["m"]⟩ none _ _ ?_
  have h1 : extractMethods (Json.arr [Json.obj [("method", Json.str "a")],
      Json.obj [("method", Json.str "m")]]) = [some "a", some "m"] := rfl
  have h2 : extractMethods (Json.arr [Json.obj [("method", Json.str "m")],
      Json.obj [("method", Json.str "a")],
      Json.obj [("method", Json.str "a")]]) = [some "m", some "a", some "a"] := rfl
  intro s
  rw [h1, h2]
  simp only [List.mem_cons, List.mem_singleton, Option.some.injEq, List.not_mem_nil, or_false]
  tauto

/-- Claim C10: every result of `validateApiKey` is one of exactly two
values — valid with no error, or invalid with the fixed `-32001` error — so
the middleware's denial condition `!isValid AND error present` is
equivalent to `!isValid` alone. -/
theorem C10_claim (config : ApiKeyAuthConfig) (body : Option Json) (key : Option String) :
    (validateApiKey config body key = { isValid := true, error := none } ∨
      validateApiKey config body key =
        { isValid := false
          error := some { code := -32001, message := "Unauthorized: Invalid or missing API key" } })
    ∧ (((validateApiKey config body key).isValid = false ∧
        (validateApiKey config body key).error.isSome = true) ↔
      (validateApiKey config body key).isValid = false) := by
  refine ⟨validateApiKey_shape config body key, ?_⟩
  rcases validateApiKey_shape config body key with h | h <;> rw [h] <;> simp

/-! ## Helper lemmas about paths -/

/-- `takeWhile` passes over a prefix whose elements all satisfy the
predicate. -/
theorem takeWhile_append_of_all {α : Type} (q : α → Bool) (l₁ l₂ : List α)
    (h : ∀ a ∈ l₁, q a = true) :
    (l₁ ++ l₂).takeWhile q = l₁ ++ l₂.takeWhile q := by
  induction l₁ with
  | nil => simp
  | cons a t ih =>
    have ha := h a (List.mem_cons_self a t)
    simp [List.takeWhile_cons, ha, ih (fun x hx => h x (List.mem_cons_of_mem a hx))]

/-- `dropWhile` drops a prefix whose elements all satisfy the predicate. -/
theorem dropWhile_append_of_all {α : Type} (q : α → Bool) (l₁ l₂ : List α)
    (h : ∀ a ∈ l₁, q a = true) :
    (l₁ ++ l₂).dropWhile q = l₂.dropWhile q := by
  induction l₁ with
  | nil => simp
  | cons a t ih =>
    have ha := h a (List.mem_cons_self a t)
    simp [List.dropWhile_cons, ha, ih (fun x hx => h x (List.mem_cons_of_mem a hx))]

/-- `takeWhile` keeps a list all of whose elements satisfy the predicate. -/
theorem takeWhile_eq_self_of_all {α : Type} (q : α → Bool) (l : List α)
    (h : ∀ a ∈ l, q a = true) : l.takeWhile q = l := by
  induction l with
  | nil => rfl
  | cons a t ih =>
    have ha := h a (List.mem_cons_self a t)
    simp [List.takeWhile_cons, ha, ih (fun x hx => h x (List.mem_cons_of_mem a hx))]

/-- The versioned-route test holds exactly on the strings described by the
regular expression `/^\/v\d+\/rpc$/`: a slash, a `v`, a non-empty run of
decimal digits, then exactly `/rpc`. -/
theorem matchVersionedRpc_iff (p : String) :
    matchVersionedRpc p = true ↔
      ∃ ds : List Char, ds ≠ [] ∧ (∀ c ∈ ds, c.isDigit = true) ∧
        p.data = '/' :: 'v' :: (ds ++ "/rpc".data) := by
  unfold matchVersionedRpc
  split
  next rest heq =>
    rw [Bool.and_eq_true, decide_eq_true_iff]
    constructor
    · rintro ⟨h1, h2⟩
      refine ⟨rest.takeWhile Char.isDigit, ?_, ?_, ?_⟩
      · intro hc
        rw [hc] at h1
        simp at h1
      · intro c hc
        exact List.mem_takeWhile_imp hc
      · simp only [heq, List.cons.injEq, true_and]
        conv_lhs => rw [← List.takeWhile_append_dropWhile Char.isDigit rest]
        rw [h2]
    · rintro ⟨ds, hne, hdig, hp⟩
      rw [heq] at hp
      simp only [List.cons.injEq, true_and] at hp
      subst hp
      constructor
      · rw [takeWhile_append_of_all Char.isDigit ds _ hdig]
        simp [show List.takeWhile Char.isDigit "/rpc".data = [] from rfl, hne]
      · rw [dropWhile_append_of_all Char.isDigit ds _ hdig]
        decide
  next x hno =>
    simp only [Bool.false_eq_true, false_iff]
    rintro ⟨ds, _, _, hp⟩
    exact hno (ds ++ "/rpc".data) hp

/-- The gated-path test holds exactly on the four literal routes and the
versioned `/v<digits>/rpc` routes. -/
theorem isGatedPath_iff (p : String) :
    isGatedPath p = true ↔
      (p = "/" ∨ p = "/rpc" ∨ p = "/v1/rpc" ∨ p = "/v2/rpc" ∨
        ∃ ds : List Char, ds ≠ [] ∧ (∀ c ∈ ds, c.isDigit = true) ∧
          p.data = '/' :: 'v' :: (ds ++ "/rpc".data)) := by
  unfold isGatedPath
  simp only [Bool.or_eq_true, matchVersionedRpc_iff]
  constructor
  · rintro (hmem | hpat)
    · have hmem2 : p ∈ ["/rpc", "/", "/v1/rpc", "/v2/rpc"] := by simpa using hmem
      simp only [List.mem_cons, List.not_mem_nil, or_false] at hmem2
      tauto
    · tauto
  · intro h
    rcases h with rfl | rfl | rfl | rfl | hpat
    · exact Or.inl (by decide)
    · exact Or.inl (by decide)
    · exact Or.inl (by decide)
    · exact Or.inl (by decide)
    · exact Or.inr hpat

/-- A decimal digit is neither a question mark nor a hash. -/
theorem digit_notQueryHash {c : Char} (h : c.isDigit = true) : notQueryHash c = true := by
  by_cases h1 : c = '?'
  · subst h1
    exact absurd h (by decide)
  · by_cases h2 : c = '#'
    · subst h2
      exact absurd h (by decide)
    · simp [notQueryHash, h1, h2]

/-- No character of a gated pathname is a question mark or a hash. -/
theorem gatedPath_chars {p : String} (h : isGatedPath p = true) :
    ∀ c ∈ p.data, notQueryHash c = true := by
  rcases (isGatedPath_iff p).mp h with rfl | rfl | rfl | rfl | ⟨ds, _, hdig, hp⟩
  · decide
  · decide
  · decide
  · decide
  · intro c hc
    rw [hp] at hc
    simp only [List.mem_cons, List.mem_append, List.not_mem_nil, or_false] at hc
    rcases hc with rfl | rfl | hc | hc
    · decide
    · decide
    · exact digit_notQueryHash (hdig c hc)
    · rcases hc with rfl | rfl | rfl | rfl <;> decide

/-- Stripping the query from a gated pathname changes nothing. -/
theorem stripQuery_eq_self_of_gated {p : String} (h : isGatedPath p = true) :
    stripQuery p = p := by
  unfold stripQuery
  rw [takeWhile_eq_self_of_all notQueryHash p.data (gatedPath_chars h)]

/-- Appending `?<query>` to a pathname free of query and hash characters
strips back to the pathname. -/
theorem stripQuery_append_query (p q : String)
    (h : ∀ c ∈ p.data, notQueryHash c = true) :
    stripQuery (p ++ "?" ++ q) = p := by
  unfold stripQuery
  have hd : (p ++ "?" ++ q).data = p.data ++ ('?' :: q.data) := by
    show (p.data ++ '?' :: List.nil) ++ q.data = p.data ++ ('?' :: q.data)
    simp
  rw [hd, takeWhile_append_of_all notQueryHash p.data _ h]
  rw [show List.takeWhile notQueryHash ('?' :: q.data) = [] by
    rw [List.takeWhile_cons]
    simp [notQueryHash]]
  rw [List.append_nil]

/-! ## Claims about the HTTP middleware -/

/-- Claim C4: the middleware gates a request exactly when its pathname (the
raw URL with any query string stripped) is one of `/`, `/rpc`, `/v1/rpc`,
`/v2/rpc` or matches `/v<digits>/rpc` for some version number; every other
pathname (such as `/health` or `/metrics`) makes the middleware return
immediately — `none` for every configuration, body and credential, so it
never denies there. -/
theorem C4_claim (config : ApiKeyAuthConfig) (rawUrl : String) (body : Option Json)
    (key : Option String) :
    (isGatedPath (stripQuery rawUrl) = true ↔
      (stripQuery rawUrl = "/" ∨ stripQuery rawUrl = "/rpc" ∨
        stripQuery rawUrl = "/v1/rpc" ∨ stripQuery rawUrl = "/v2/rpc" ∨
        ∃ ds : List Char, ds ≠ [] ∧ (∀ c ∈ ds, c.isDigit = true) ∧
          (stripQuery rawUrl).data = '/' :: 'v' :: (ds ++ "/rpc".data)))
    ∧ (isGatedPath (stripQuery rawUrl) = false →
        apiKeyAuthMiddleware config rawUrl body key = none) := by
  refine ⟨isGatedPath_iff _, fun h => ?_⟩
  unfold apiKeyAuthMiddleware
  simp [h]

/-- Claim C4, witness: `/v10/rpc` is gated via the versioned pattern, and a
request to `/health` with a protected body and no key passes the middleware
untouched. -/
theorem C4_witness :
    isGatedPath (stripQuery "/v10/rpc") = true ∧
    apiKeyAuthMiddleware ⟨"secret", ["m"]⟩ "/health"
      (some (Json.obj [("method", Json.str "m")])) none = none := by
  constructor
  · exact (C4_claim ⟨"secret", ["m"]⟩ "/v10/rpc" none none).1.mpr
      (Or.inr (Or.inr (Or.inr (Or.inr ⟨['1', '0'], by decide, by decide, by decide⟩))))
  · exact (C4_claim ⟨"secret", ["m"]⟩ "/health"
      (some (Json.obj [("method", Json.str "m")])) none).2 (by decide)

/-- Claim C5: the route match is computed on the pathname with the query
string removed: a gated path followed by `?<query>` strips back to the bare
path and is classified (and handled by the middleware) exactly as the bare
path is, for every configuration, body and credential. -/
theorem C5_claim (p q : String) (config : ApiKeyAuthConfig) (body : Option Json)
    (key : Option String) (h : isGatedPath p = true) :
    stripQuery (p ++ "?" ++ q) = p ∧
    apiKeyAuthMiddleware config (p ++ "?" ++ q) body key =
      apiKeyAuthMiddleware config p body key := by
  have hs := stripQuery_append_query p q (gatedPath_chars h)
  refine ⟨hs, ?_⟩
  unfold apiKeyAuthMiddleware
  rw [hs, stripQuery_eq_self_of_gated h]

/-- Claim C5, witness: `/v1/rpc?x=y` strips to `/v1/rpc` and is handled
exactly like `/v1/rpc`. -/
theorem C5_witness :
    stripQuery ("/v1/rpc" ++ "?" ++ "x=y") = "/v1/rpc" ∧
    apiKeyAuthMiddleware ⟨"secret", ["m"]⟩ ("/v1/rpc" ++ "?" ++ "x=y")
        (some (Json.obj [("method", Json.str "m")])) none =
      apiKeyAuthMiddleware ⟨"secret", ["m"]⟩ "/v1/rpc"
        (some (Json.obj [("method", Json.str "m")])) none :=
  C5_claim "/v1/rpc" "x=y" ⟨"secret", ["m"]⟩
    (some (Json.obj [("method", Json.str "m")])) none (by decide)

/-- Claim C7: on a gated path, when the validator denies, the middleware
short-circuits with HTTP status 401 and exactly the single JSON-RPC error
envelope `jsonrpc "2.0", id null, error code -32001` — one envelope even for
a denied batch, the dispatcher never invoked — and when the validator
allows, the middleware does nothing and normal handling proceeds. -/
theorem C7_claim (config : ApiKeyAuthConfig) (rawUrl : String) (body : Option Json)
    (key : Option String) (hgate : isGatedPath (stripQuery rawUrl) = true) :
    ((validateApiKey config body key).isValid = false →
      apiKeyAuthMiddleware config rawUrl body key = some (401, unauthorizedEnvelope))
    ∧ ((validateApiKey config body key).isValid = true →
      apiKeyAuthMiddleware config rawUrl body key = none) := by
  unfold apiKeyAuthMiddleware
  simp only [hgate]
  constructor
  · intro hv
    rcases validateApiKey_shape config body key with hsh | hsh
    · rw [hsh] at hv
      simp at hv
    · rw [hsh]
      simp [renderAuth, unauthorizedEnvelope]
  · intro hv
    rcases validateApiKey_shape config body key with hsh | hsh
    · rw [hsh]
      simp [renderAuth]
    · rw [hsh] at hv
      simp at hv

/-- Claim C7, witness: a protected call on `/rpc` with no key gets the 401
envelope, and an unprotected call on `/rpc` passes through. -/
theorem C7_witness :
    apiKeyAuthMiddleware ⟨"secret", ["eth_sendUserOperation"]⟩ "/rpc"
        (some (Json.obj [("method", Json.str "eth_sendUserOperation")])) none =
      some (401, unauthorizedEnvelope) ∧
    apiKeyAuthMiddleware ⟨"secret", ["eth_sendUserOperation"]⟩ "/rpc"
        (some (Json.obj [("method", Json.str "eth_chainId")])) none = none := by
  constructor
  · exact (C7_claim ⟨"secret", ["eth_sendUserOperation"]⟩ "/rpc"
      (some (Json.obj [("method", Json.str "eth_sendUserOperation")])) none (by decide)).1
      (by decide)
  · exact (C7_claim ⟨"secret", ["eth_sendUserOperation"]⟩ "/rpc"
      (some (Json.obj [("method", Json.str "eth_chainId")])) none (by decide)).2
      (by decide)
